import Mathlib

/-!
# Verification of jshell (jshell.c)

Shallow embedding of the core of `jshell.c` (tokenizer `split_line`, executor
`jshell_exec`, pipeline split `jshell_pipe`, pipeline construction
`jshell_exec_pipe`, and the builtins), together with theorems settling the
specification claims.

Modelling conventions:
* C strings are Lean `String` / `List Char`; the terminating NUL of a C string
  is represented by the end of the list.
* `raise_error` prints a diagnostic and calls `exit(EXIT_FAILURE)`, aborting
  the whole process; it is modelled as `Except.error msg` (tokenizer) or as a
  dedicated `fatal` outcome (executor).
* `malloc`/`realloc` are assumed to succeed (their failure paths only call
  `raise_error`); likewise `pipe`/`fork` success is an explicit parameter
  where it matters.
-/

set_option maxRecDepth 8192

instance {ε α : Type} [DecidableEq ε] [DecidableEq α] : DecidableEq (Except ε α)
  | .error a, .error b =>
    if h : a = b then isTrue (by rw [h]) else isFalse (by intro hh; cases hh; exact h rfl)
  | .error _, .ok _ => isFalse (by intro h; cases h)
  | .ok _, .error _ => isFalse (by intro h; cases h)
  | .ok a, .ok b =>
    if h : a = b then isTrue (by rw [h]) else isFalse (by intro hh; cases hh; exact h rfl)

/-- `#define MAX_WORD_SIZE 100` — size of the fixed per-token buffer. -/
def MAX_WORD_SIZE : Nat := 100

/-- `#define JSHELL_SUCCESS 0` (the `CONTINUE` status). -/
def JSHELL_SUCCESS : Nat := 0

/-- `#define JSHELL_FAILED 1` (the `FAILED` status). -/
def JSHELL_FAILED : Nat := 1

/-- `#define JSHELL_EXIT_CODE 27` (the `EXIT` status requested by `exit`). -/
def JSHELL_EXIT_CODE : Nat := 27

/-- `is_delimiter` from jshell.c: space, tab, carriage return, newline, bell. -/
def is_delimiter (c : Char) : Bool :=
  c == ' ' || c == '\t' || c == '\r' || c == '\n' || c == '\x07'

/-- The `End_token` label of `split_line`: a non-empty accumulated buffer is
finalized as the next token (`token[j] = '\0'; tokens[current_token] = token`),
an empty buffer is skipped (no empty token is ever produced). -/
def end_token (acc : List String) (buf : List Char) : List String :=
  if buf = [] then acc else acc ++ [String.mk buf]

/-- The scanning loop of `split_line` from jshell.c, one step per character.
State: remaining input (list end = the `'\0'` terminator), `in_quotes`, the
current token buffer `token[0..j-1]`, and the finalized tokens so far.

* `'"'` outside quotes sets `in_quotes` and drops the quote (`continue`);
* `'"'` inside quotes requires the next character to be a delimiter or the
  end of the line, else `raise_error("Expected delimiter after end quote.")`;
  on success it clears `in_quotes`, skips past the quote (`i++`) and jumps to
  `End_token` (at the delimiter, which the loop increment then consumes);
* a non-delimiter character (or any character while `in_quotes`) is appended
  to the buffer (`token[j] = line[i]; j++`);
* a delimiter outside quotes finalizes the buffer via `End_token`;
* end of line finalizes the buffer; if `in_quotes` is still set the
  function calls `raise_error("Parsing ended unexpectedly.")`. -/
def splitGo : List Char → Bool → List Char → List String → Except String (List String)
  | [], iq, buf, acc =>
    if iq then Except.error "Parsing ended unexpectedly."
    else Except.ok (end_token acc buf)
  | c :: rest, iq, buf, acc =>
    if c = '"' then
      if iq then
        match rest with
        | [] => Except.ok (end_token acc buf)
        | d :: rest' =>
          if is_delimiter d then splitGo rest' false [] (end_token acc buf)
          else Except.error "Expected delimiter after end quote."
      else splitGo rest true buf acc
    else if !is_delimiter c || iq then splitGo rest iq (buf ++ [c]) acc
    else splitGo rest false [] (end_token acc buf)

/-- `split_line` from jshell.c: tokenize one input line. -/
def split_line (line : List Char) : Except String (List String) :=
  splitGo line false [] []

/-- The test `args[i][0] == JSHELL_PIPE[0]` from jshell.c (`JSHELL_PIPE` is
`"|"`): does the token begin with the pipe character?  On the empty token the
C expression reads the terminating NUL, which is not `'|'`. -/
def isPipeInitial (t : String) : Bool :=
  match t.data with
  | [] => false
  | c :: _ => c == '|'

/-- The scan `for(i=0; args[i]!=NULL; i++) if(args[i][0]==JSHELL_PIPE[0])` in
`jshell_exec`: index of the first token beginning with `'|'`, if any. -/
def find_pipe_idx : List String → Option Nat
  | [] => none
  | t :: ts => if isPipeInitial t then some 0 else (find_pipe_idx ts).map (· + 1)

/-- The scan `for(i=1; args[i]!=NULL; i++) if(args[i][0]==JSHELL_PIPE[0])
sizeof_left = i + 1;` in `jshell_pipe`, with `i` the index of the current
token in the full argument list (the scan starts at index 1). -/
def sizeof_left_aux : List String → Nat → Nat → Nat
  | [], _, acc => acc
  | t :: ts, i, acc => sizeof_left_aux ts (i + 1) (if isPipeInitial t then i + 1 else acc)

/-- `sizeof_left` as computed by `jshell_pipe`: one more than the index of the
last `'|'`-initial token among indices `1, 2, …`, and `0` when there is none. -/
def sizeof_left (args : List String) : Nat :=
  sizeof_left_aux (args.drop 1) 1 0

/-- The `left_args` array built by `jshell_pipe`.  The copy loop writes
`left_args[i] = args[i]` for `i < sizeof_left` but skips every `'|'`-initial
token (`continue`), and finally stores the NULL terminator at index
`sizeof_left - 1`.  A skipped index below `sizeof_left - 1` therefore leaves
`left_args[i]` uninitialized; that (undefined) outcome is modelled as `none`.
When no cell is skipped the array holds exactly the first `sizeof_left - 1`
tokens. -/
def left_args (args : List String) : Option (List String) :=
  let pre := args.take (sizeof_left args - 1)
  if pre.any isPipeInitial then none else some pre

/-- Outcome of `jshell_pipe`: either the guard `sizeof_left == 0 ||
sizeof_right == 0` fired (`return 1`, nothing spawned), or the two argument
vectors were built and handed to `jshell_exec_pipe`, which spawns the two
children.  `left = none` models an uninitialized hole in `left_args`. -/
inductive PipeResult
  | guardFail
  | spawn (left : Option (List String)) (right : List String)
  deriving DecidableEq

/-- `jshell_pipe` from jshell.c: split the argument vector at the last
`'|'`-initial token (scanning from index 1) and dispatch to
`jshell_exec_pipe`.  `sizeof_right = i - sizeof_left + 1` counts the slots of
`right_args` including its NULL terminator; `right_args` receives the tokens
at indices `≥ sizeof_left` (none of which is `'|'`-initial, since
`sizeof_left` points past the last one). -/
def jshell_pipe (args : List String) : PipeResult :=
  let sl := sizeof_left args
  let sr := args.length - sl + 1
  if sl = 0 ∨ sr = 0 then PipeResult.guardFail
  else PipeResult.spawn (left_args args) (args.drop sl)

/-- How the child process of `jshell_run` ends: normal `exit`, killed by a
signal, or `execvp` failure (the child then prints `perror` and exits with
`EXIT_FAILURE`; the parent only ever observes a normal exit or a signal). -/
inductive ChildFate
  | exited (code : Nat)
  | signaled (sig : Nat)
  | execFailed
  deriving DecidableEq

/-- The operating-system context the executor runs against: whether
`chdir(args[1])` succeeds, and how a spawned child terminates.  `fork` and
`pipe` are assumed to succeed. -/
structure Env where
  chdirOk : Bool
  childFate : ChildFate
  deriving DecidableEq

def defaultEnv : Env := ⟨true, ChildFate.exited 0⟩

/-- Result of `jshell_run`: the argv of the single child spawned by `fork` +
`execvp`, the fact that the parent's `waitpid` loop ran until the child
exited or was signaled, and the return value. -/
structure RunResult where
  spawned : List String
  waited : Bool
  code : Nat
  deriving DecidableEq

/-- `jshell_run` from jshell.c: fork a child running `execvp(args[0], args)`
(on `execvp` failure the child reports the error and exits with
`EXIT_FAILURE`), wait until the child exits or is signaled, and `return
JSHELL_SUCCESS` — the child's own termination status is never consulted for
the return value. -/
def jshell_run (args : List String) (fate : ChildFate) : RunResult :=
  { spawned := args
    waited := match fate with
      | ChildFate.exited _ => true
      | ChildFate.signaled _ => true
      | ChildFate.execFailed => true
    code := JSHELL_SUCCESS }

/-- What `jshell_exec` did for one token sequence (which diagnostic was
printed / which branch ran). -/
inductive ExecAction
  | emptyNoop
  | pipeSyntaxErr
  | pipeRightExpectedErr
  | piped (r : PipeResult)
  | builtinCd (reportedOsError : Bool)
  | builtinHelp
  | builtinExit
  | externalRun (argv : List String)
  deriving DecidableEq

/-- Outcome of the executor: either `raise_error` aborted the whole process
(`fatal`), or the call returned `code` after performing `action`. -/
inductive ExecOutcome
  | fatal (msg : String)
  | ret (action : ExecAction) (code : Nat)
  deriving DecidableEq

/-- `jshell_cd` from jshell.c: `args[1] == NULL` aborts the process via
`raise_error("Argument expected for 'cd' command")`; otherwise `chdir` is
attempted, a failure is reported with `perror` (recorded in `builtinCd`),
and `JSHELL_SUCCESS` is returned either way. -/
def jshell_cd (env : Env) (args : List String) : ExecOutcome :=
  match args.get? 1 with
  | none => ExecOutcome.fatal "Argument expected for 'cd' command"
  | some _ => ExecOutcome.ret (ExecAction.builtinCd (!env.chdirOk)) JSHELL_SUCCESS

/-- `jshell_exec` from jshell.c.

* `args[0] == NULL` → return `JSHELL_SUCCESS` (empty command);
* scan for the first token whose first character is `'|'`; if found:
  `strlen > 1` or index `0` → print `"Syntax error for '|'"` and return
  `JSHELL_FAILED`; no following token → print `"Right command expected for
  piping"` and return `JSHELL_FAILED`; otherwise `return jshell_pipe(args)`
  (whose spawn path returns `JSHELL_SUCCESS` once both children are spawned,
  and whose guard path returns `1 = JSHELL_FAILED`);
* otherwise compare `args[0]` with the builtin table `cd`, `help`, `exit`
  in order and run the match;
* otherwise `return jshell_run(args)`. -/
def jshell_exec (env : Env) (args : List String) : ExecOutcome :=
  match args with
  | [] => ExecOutcome.ret ExecAction.emptyNoop JSHELL_SUCCESS
  | a0 :: _ =>
    match find_pipe_idx args with
    | some i =>
      if (args.getD i "").length > 1 ∨ i = 0 then
        ExecOutcome.ret ExecAction.pipeSyntaxErr JSHELL_FAILED
      else if args.length = i + 1 then
        ExecOutcome.ret ExecAction.pipeRightExpectedErr JSHELL_FAILED
      else
        match jshell_pipe args with
        | PipeResult.guardFail =>
          ExecOutcome.ret (ExecAction.piped PipeResult.guardFail) JSHELL_FAILED
        | PipeResult.spawn l r =>
          ExecOutcome.ret (ExecAction.piped (PipeResult.spawn l r)) JSHELL_SUCCESS
    | none =>
      if a0 = "cd" then jshell_cd env args
      else if a0 = "help" then ExecOutcome.ret ExecAction.builtinHelp JSHELL_SUCCESS
      else if a0 = "exit" then ExecOutcome.ret ExecAction.builtinExit JSHELL_EXIT_CODE
      else
        let r := jshell_run args env.childFate
        ExecOutcome.ret (ExecAction.externalRun r.spawned) r.code

/-- Recognize the executor outcomes belonging to the pipe path of
`jshell_exec` (either of the two pipe diagnostics, or pipeline dispatch). -/
def isPipePath : ExecOutcome → Bool
  | ExecOutcome.ret ExecAction.pipeSyntaxErr _ => true
  | ExecOutcome.ret ExecAction.pipeRightExpectedErr _ => true
  | ExecOutcome.ret (ExecAction.piped _) _ => true
  | _ => false

example : jshell_exec defaultEnv ["ls", "|", "wc", "-l"] =
    ExecOutcome.ret (ExecAction.piped (PipeResult.spawn (some ["ls"]) ["wc", "-l"]))
      JSHELL_SUCCESS := by decide
example : jshell_exec defaultEnv ["|", "foo"] =
    ExecOutcome.ret ExecAction.pipeSyntaxErr JSHELL_FAILED := by decide
example : jshell_exec defaultEnv ["foo", "|"] =
    ExecOutcome.ret ExecAction.pipeRightExpectedErr JSHELL_FAILED := by decide
example : jshell_exec defaultEnv ["a", "|", "b", "|"] =
    ExecOutcome.ret (ExecAction.piped (PipeResult.spawn none [])) JSHELL_SUCCESS := by
  decide
example : jshell_pipe ["a", "|", "b", "|", "c"] = PipeResult.spawn none ["c"] := by decide
example : jshell_exec defaultEnv ["exit", "now"] =
    ExecOutcome.ret ExecAction.builtinExit JSHELL_EXIT_CODE := by decide
example : jshell_exec defaultEnv ["cd"] =
    ExecOutcome.fatal "Argument expected for 'cd' command" := by decide
example : jshell_exec defaultEnv ["echo", "|foo"] =
    ExecOutcome.ret ExecAction.pipeSyntaxErr JSHELL_FAILED := by decide
example : jshell_exec defaultEnv ["echo", "a|b"] =
    ExecOutcome.ret (ExecAction.externalRun ["echo", "a|b"]) JSHELL_SUCCESS := by decide

/-- The two descriptors produced by `pipe(pipefd)`: `pipefd[0]` (read end)
and `pipefd[1]` (write end). -/
inductive PipeEnd
  | readEnd
  | writeEnd
  deriving DecidableEq

/-- One system call performed by a process of `jshell_exec_pipe`, in program
order. -/
inductive SysEvent
  | pipeCreate
  | forkEv
  | closeEv (e : PipeEnd)
  | dup2Ev (src : PipeEnd) (dstFd : Nat)
  | execvpEv (argv : List String)
  | waitEv (child : Nat)
  deriving DecidableEq

/-- Is the event a `close` of one of the channel descriptors? -/
def isCloseEv : SysEvent → Bool
  | SysEvent.closeEv _ => true
  | _ => false

/-- The system calls executed by the PARENT process in `jshell_exec_pipe`,
transcribed from jshell.c for each outcome of `pipe`/`fork`:

* `pipe(pipefd)` fails → report, `return JSHELL_FAILED`;
* first `fork` fails → report, `return JSHELL_FAILED`;
* second `fork` fails → report, `return JSHELL_FAILED`;
* both children spawned → the parent runs its two `waitpid` loops (first on
  `p1`, then on `p2`) and returns `JSHELL_SUCCESS`.

The parent executes no `close` on either `pipefd[0]` or `pipefd[1]` on any
path. -/
def jshell_exec_pipe_parent (pipeOk fork1Ok fork2Ok : Bool) : List SysEvent × Nat :=
  if !pipeOk then ([SysEvent.pipeCreate], JSHELL_FAILED)
  else if !fork1Ok then ([SysEvent.pipeCreate, SysEvent.forkEv], JSHELL_FAILED)
  else if !fork2Ok then
    ([SysEvent.pipeCreate, SysEvent.forkEv, SysEvent.forkEv], JSHELL_FAILED)
  else
    ([SysEvent.pipeCreate, SysEvent.forkEv, SysEvent.forkEv,
      SysEvent.waitEv 1, SysEvent.waitEv 2], JSHELL_SUCCESS)

/-- The system calls executed by the LEFT child of `jshell_exec_pipe`:
`close(pipefd[0]); dup2(pipefd[1], STDOUT_FILENO); close(pipefd[1]);
execvp(left_args[0], left_args)`. -/
def left_child_events (left : List String) : List SysEvent :=
  [SysEvent.closeEv PipeEnd.readEnd, SysEvent.dup2Ev PipeEnd.writeEnd 1,
   SysEvent.closeEv PipeEnd.writeEnd, SysEvent.execvpEv left]

/-- The system calls executed by the RIGHT child of `jshell_exec_pipe`:
`close(pipefd[1]); dup2(pipefd[0], STDIN_FILENO); close(pipefd[0]);
execvp(right_args[0], right_args)`. -/
def right_child_events (right : List String) : List SysEvent :=
  [SysEvent.closeEv PipeEnd.writeEnd, SysEvent.dup2Ev PipeEnd.readEnd 0,
   SysEvent.closeEv PipeEnd.readEnd, SysEvent.execvpEv right]

/-- The `token[j] = '\0'` write performed by `End_token` when the buffer is
non-empty: it touches index `j = buf.length` of the 100-byte `token` buffer.
`0` when the buffer is empty (no write happens). -/
def end_write (buf : List Char) : Nat :=
  if buf = [] then 0 else buf.length

/-- `splitGo` instrumented with the largest index written into the fixed
`char token[MAX_WORD_SIZE]` buffer: every `token[j] = line[i]` writes at
index `buf.length`, every `End_token` finalization writes the terminating
NUL at index `buf.length`.  The C code performs these writes without any
bound check.  The first component coincides with `splitGo`. -/
def splitGoW : List Char → Bool → List Char → List String →
    Except String (List String) × Nat
  | [], iq, buf, acc =>
    if iq then (Except.error "Parsing ended unexpectedly.", end_write buf)
    else (Except.ok (end_token acc buf), end_write buf)
  | c :: rest, iq, buf, acc =>
    if c = '"' then
      if iq then
        match rest with
        | [] => (Except.ok (end_token acc buf), end_write buf)
        | d :: rest' =>
          if is_delimiter d then
            let p := splitGoW rest' false [] (end_token acc buf)
            (p.1, max p.2 (end_write buf))
          else (Except.error "Expected delimiter after end quote.", 0)
      else splitGoW rest true buf acc
    else if !is_delimiter c || iq then
      let p := splitGoW rest iq (buf ++ [c]) acc
      (p.1, max p.2 buf.length)
    else
      let p := splitGoW rest false [] (end_token acc buf)
      (p.1, max p.2 (end_write buf))

/-- `split_line` instrumented with the largest written buffer index. -/
def split_line_w (line : List Char) : Except String (List String) × Nat :=
  splitGoW line false [] []

example : split_line_w "ab".data = (Except.ok ["ab"], 2) := by decide
example : (split_line_w (List.replicate 100 'a')).2 = 100 := by decide
example : split_line_w "ab cde".data = (Except.ok ["ab", "cde"], 3) := by decide

/-- C1: REFUTED BY THE CODE (code bug).  On every path of `jshell_exec_pipe`
— including the one where both children have been spawned and the parent
waits for them — the parent process never executes `close` on either end of
the pipe: its event trace contains no close event at all.  The claim (and
§4.3/§5 of the spec) requires the parent to close both `pipefd[0]` and
`pipefd[1]` once both children are spawned; consequently a right child that
reads until end-of-input never sees EOF (the parent's write end stays open)
and both descriptors leak. -/
theorem exec_pipe_parent_never_closes :
    ∀ pipeOk fork1Ok fork2Ok : Bool,
      List.filter isCloseEv (jshell_exec_pipe_parent pipeOk fork1Ok fork2Ok).1 = [] := by
  decide

/-- C2 counterexample: for the token sequence `["a","|","b","|","c"]` (which
contains pipe-separator tokens), the split does NOT produce
`left = ["a","|","b"]` (the tokens before the last separator): the copy loop
of `jshell_pipe` skips the inner `"|"` token, leaving `left_args[1]`
uninitialized (modelled as `left = none`), so
`left ++ ["|"] ++ right ≠ tokens`. -/
theorem pipe_split_multi_separator_cex :
    jshell_pipe ["a", "|", "b", "|", "c"] = PipeResult.spawn none ["c"]
    ∧ jshell_pipe ["a", "|", "b", "|", "c"] ≠
        PipeResult.spawn (some ["a", "|", "b"]) ["c"] := by decide

/-- C3: REFUTED BY THE CODE (code bug).  `jshell_exec(["foo","|"])` does
return `FAILED` with the "Right command expected for piping" diagnostic and
spawns nothing — but the guard only inspects the FIRST `'|'`-initial token.
For `["a","|","b","|"]` the boundary-determining (last) separator is
followed by no token, yet `jshell_exec` dispatches `jshell_pipe`, which
spawns both children with an empty right argument vector (and an
uninitialized hole in the left one) and returns `JSHELL_SUCCESS`, not
`JSHELL_FAILED` — contradicting the claim and the code's own
"Shouldn't ever happen" guard. -/
theorem exec_trailing_separator_bug :
    jshell_exec defaultEnv ["foo", "|"] =
      ExecOutcome.ret ExecAction.pipeRightExpectedErr JSHELL_FAILED
    ∧ jshell_exec defaultEnv ["a", "|", "b", "|"] =
      ExecOutcome.ret (ExecAction.piped (PipeResult.spawn none [])) JSHELL_SUCCESS
    ∧ JSHELL_SUCCESS ≠ JSHELL_FAILED := by decide

/-- C4 counterexample: the token `"|foo"` embeds the pipe character in a
longer token, so by the claim it should be ignored (no syntax error, no
pipeline dispatch) — but `jshell_exec` matches `args[i][0] == '|'`, finds
`strlen > 1`, prints "Syntax error for '|'" and returns `JSHELL_FAILED`. -/
theorem exec_leading_pipe_token_cex :
    jshell_exec defaultEnv ["echo", "|foo"] =
      ExecOutcome.ret ExecAction.pipeSyntaxErr JSHELL_FAILED
    ∧ isPipePath (jshell_exec defaultEnv ["echo", "|foo"]) = true := by decide

/-- C8 counterexample: `["ls","|x"]` contains no pipe-separator token (no
token equals `"|"`) and its first token is no builtin, so by the claim it
should be launched as a single external command returning `CONTINUE` — but
`jshell_exec` matches the `'|'`-initial token `"|x"`, prints the syntax
diagnostic and returns `JSHELL_FAILED` without launching anything. -/
theorem exec_nonseparator_pipe_token_cex :
    "|" ∉ ["ls", "|x"]
    ∧ jshell_exec defaultEnv ["ls", "|x"] =
      ExecOutcome.ret ExecAction.pipeSyntaxErr JSHELL_FAILED
    ∧ jshell_exec defaultEnv ["ls", "|x"] ≠
      ExecOutcome.ret (ExecAction.externalRun ["ls", "|x"]) JSHELL_SUCCESS := by decide

/-- C5: when the tokenizer meets a closing double quote, the character after
it must be a delimiter or the end of the line, else the scan fails with the
"Expected delimiter after end quote." error; otherwise the token ends right
there, and neither the opening nor the closing quote character is added to
the token buffer (the opening-quote step keeps the buffer unchanged, the
closing-quote step finalizes exactly the accumulated buffer).  The two
end-to-end examples instantiate both outcomes. -/
theorem split_line_closing_quote :
    (∀ rest buf acc,
      splitGo (('"' : Char) :: rest) false buf acc = splitGo rest true buf acc)
    ∧ (∀ d rest buf acc,
      splitGo ('"' :: d :: rest) true buf acc =
        if is_delimiter d then splitGo rest false [] (end_token acc buf)
        else Except.error "Expected delimiter after end quote.")
    ∧ (∀ buf acc,
      splitGo [('"' : Char)] true buf acc = Except.ok (end_token acc buf))
    ∧ split_line "foo \"bar\"baz".data =
        Except.error "Expected delimiter after end quote."
    ∧ split_line "echo \"hello world\" foo".data =
        Except.ok ["echo", "hello world", "foo"] := by
  refine ⟨fun rest buf acc => ?_, fun d rest buf acc => ?_, fun buf acc => ?_,
    by decide, by decide⟩
  · conv_lhs => rw [splitGo.eq_def]
    rfl
  · conv_lhs => rw [splitGo.eq_def]
    rfl
  · conv_lhs => rw [splitGo.eq_def]
    rfl

/-- C6: reaching the end of the line with `in_quotes` still set makes the
tokenizer call `raise_error("Parsing ended unexpectedly.")`, which prints
the diagnostic and aborts the whole process (modelled by `Except.error`) —
no token sequence is returned.  The example is the spec's `foo "bar`. -/
theorem split_line_unterminated_quote :
    (∀ buf acc, splitGo [] true buf acc = Except.error "Parsing ended unexpectedly.")
    ∧ split_line "foo \"bar".data = Except.error "Parsing ended unexpectedly." := by
  refine ⟨fun buf acc => ?_, by decide⟩
  conv_lhs => rw [splitGo.eq_def]
  rfl
example : split_line "echo \"hello world\" foo".data =
    Except.ok ["echo", "hello world", "foo"] := by decide
example : split_line "foo \"bar".data = Except.error "Parsing ended unexpectedly." := by
  decide
example : split_line "foo \"bar\"baz".data =
    Except.error "Expected delimiter after end quote." := by decide
example : split_line "   ".data = Except.ok [] := by decide
example : split_line "\"a b\"".data = Except.ok ["a b"] := by decide
example : split_line "ab\"c d\"".data = Except.ok ["abc d"] := by decide
example : split_line "\"\"".data = Except.ok [] := by decide

/-! Step equations for `splitGo`, used by the inductive proofs below. -/

lemma splitGo_nil_true (buf : List Char) (acc : List String) :
    splitGo [] true buf acc = Except.error "Parsing ended unexpectedly." := by
  conv_lhs => rw [splitGo.eq_def]
  rfl

lemma splitGo_nil_false (buf : List Char) (acc : List String) :
    splitGo [] false buf acc = Except.ok (end_token acc buf) := by
  conv_lhs => rw [splitGo.eq_def]
  rfl

lemma splitGo_quote_open (rest : List Char) (buf : List Char) (acc : List String) :
    splitGo (('"' : Char) :: rest) false buf acc = splitGo rest true buf acc := by
  conv_lhs => rw [splitGo.eq_def]
  rfl

lemma splitGo_quote_close_nil (buf : List Char) (acc : List String) :
    splitGo [('"' : Char)] true buf acc = Except.ok (end_token acc buf) := by
  conv_lhs => rw [splitGo.eq_def]
  rfl

lemma splitGo_quote_close (d : Char) (rest : List Char) (buf : List Char)
    (acc : List String) :
    splitGo ('"' :: d :: rest) true buf acc =
      if is_delimiter d then splitGo rest false [] (end_token acc buf)
      else Except.error "Expected delimiter after end quote." := by
  conv_lhs => rw [splitGo.eq_def]
  rfl

lemma splitGo_cons (c : Char) (rest : List Char) (iq : Bool) (buf : List Char)
    (acc : List String) (hc : c ≠ '"') :
    splitGo (c :: rest) iq buf acc =
      if !is_delimiter c || iq then splitGo rest iq (buf ++ [c]) acc
      else splitGo rest false [] (end_token acc buf) := by
  conv_lhs => rw [splitGo.eq_def]
  simp only [if_neg hc]

lemma end_token_nil (acc : List String) : end_token acc [] = acc := by
  simp [end_token]

/-- C7: `jshell_cd` with no argument (`args[1] == NULL`) calls `raise_error`,
aborting the whole shell process with the "Argument expected for 'cd'
command" diagnostic; with an argument present but `chdir` failing, it
reports the OS error via `perror` and returns `JSHELL_SUCCESS` (the
`CONTINUE` status, distinct from the loop-terminating `JSHELL_EXIT_CODE`).
The last conjunct shows the fatal case end-to-end through `jshell_exec`. -/
theorem cd_missing_argument_fatal :
    ∀ (env : Env) (args : List String),
      (args.get? 1 = none →
        jshell_cd env args = ExecOutcome.fatal "Argument expected for 'cd' command")
      ∧ (∀ d, args.get? 1 = some d → env.chdirOk = false →
          jshell_cd env args = ExecOutcome.ret (ExecAction.builtinCd true) JSHELL_SUCCESS
          ∧ JSHELL_SUCCESS ≠ JSHELL_EXIT_CODE)
      ∧ jshell_exec env ["cd"] = ExecOutcome.fatal "Argument expected for 'cd' command" := by
  intro env args
  refine ⟨?_, ?_, rfl⟩
  · intro h
    simp only [jshell_cd, h]
  · intro d h hok
    refine ⟨?_, by decide⟩
    simp only [jshell_cd, h, hok]
    rfl

/-- Witness for `cd_missing_argument_fatal` at `["cd"]` (fatal) and
`["cd","nodir"]` with a failing `chdir` (reported, `CONTINUE`). -/
theorem cd_missing_argument_fatal_w :
    jshell_cd defaultEnv ["cd"] = ExecOutcome.fatal "Argument expected for 'cd' command"
    ∧ jshell_cd ⟨false, ChildFate.exited 0⟩ ["cd", "nodir"] =
        ExecOutcome.ret (ExecAction.builtinCd true) JSHELL_SUCCESS :=
  ⟨(cd_missing_argument_fatal defaultEnv ["cd"]).1 rfl,
   ((cd_missing_argument_fatal ⟨false, ChildFate.exited 0⟩ ["cd", "nodir"]).2.1
      "nodir" rfl rfl).1⟩

lemma sizeof_left_aux_nopipe (ts : List String) :
    ∀ (i acc : Nat), (∀ t ∈ ts, isPipeInitial t = false) →
      sizeof_left_aux ts i acc = acc := by
  induction ts with
  | nil => intro i acc _; rfl
  | cons t ts ih =>
    intro i acc h
    rw [sizeof_left_aux, h t (by simp)]
    exact ih (i + 1) acc (fun u hu => h u (by simp [hu]))

lemma sizeof_left_aux_last (l : List String) :
    ∀ (r : List String) (i acc : Nat),
      (∀ t ∈ l, isPipeInitial t = false) → (∀ t ∈ r, isPipeInitial t = false) →
      sizeof_left_aux (l ++ "|" :: r) i acc = i + l.length + 1 := by
  induction l with
  | nil =>
    intro r i acc _ hr
    rw [List.nil_append, sizeof_left_aux]
    have hp : isPipeInitial "|" = true := by decide
    rw [hp]
    simp only [if_pos]
    rw [sizeof_left_aux_nopipe r (i + 1) (i + 1) hr]
    simp only [List.length_nil]
  | cons t l ih =>
    intro r i acc hl hr
    rw [List.cons_append, sizeof_left_aux, hl t (by simp)]
    show sizeof_left_aux (l ++ "|" :: r) (i + 1) acc = i + (t :: l).length + 1
    rw [ih r (i + 1) acc (fun u hu => hl u (by simp [hu])) hr]
    simp only [List.length_cons]
    omega

/-- C2 amended: for a token sequence of the shape `left ++ ["|"] ++ right`
in which the separator is the ONLY `'|'`-initial token and `left` is
non-empty (so the separator is not the first token), `jshell_pipe` splits
exactly there: `left_args` holds precisely the tokens before the separator
and `right_args` precisely the tokens after it, so
`left ++ ["|"] ++ right` reconstructs the input token sequence. -/
theorem pipe_split_single_separator :
    ∀ (l r : List String),
      l ≠ [] → (∀ t ∈ l, isPipeInitial t = false) → (∀ t ∈ r, isPipeInitial t = false) →
      jshell_pipe (l ++ "|" :: r) = PipeResult.spawn (some l) r := by
  intro l r hne hl hr
  have hsl : sizeof_left (l ++ "|" :: r) = l.length + 1 := by
    obtain ⟨a, l', rfl⟩ := List.exists_cons_of_ne_nil hne
    rw [sizeof_left, List.cons_append, List.drop_one, List.tail_cons]
    rw [sizeof_left_aux_last l' r 1 0 (fun u hu => hl u (by simp [hu])) hr]
    simp only [List.length_cons]
    omega
  have hguard : ¬ (l.length + 1 = 0 ∨ (l ++ "|" :: r).length - (l.length + 1) + 1 = 0) := by
    simp only [List.length_append, List.length_cons]
    omega
  have htake : (l ++ "|" :: r).take (l.length + 1 - 1) = l := by
    simp
  have hdrop : (l ++ "|" :: r).drop (l.length + 1) = r := by
    rw [show l ++ "|" :: r = (l ++ ["|"]) ++ r by simp]
    exact List.drop_left' (by simp)
  have hany : l.any isPipeInitial = false := by
    rw [List.any_eq_false]
    intro x hx
    rw [hl x hx]
    exact Bool.false_ne_true
  rw [jshell_pipe, left_args, hsl]
  rw [if_neg hguard, htake, hdrop, hany]
  rfl

/-- Witness for `pipe_split_single_separator` at the spec's
`["ls","|","wc","-l"]` example. -/
theorem pipe_split_single_separator_w :
    jshell_pipe ["ls", "|", "wc", "-l"] = PipeResult.spawn (some ["ls"]) ["wc", "-l"] :=
  pipe_split_single_separator ["ls"] ["wc", "-l"] (by decide) (by decide) (by decide)

lemma find_pipe_idx_eq_none (args : List String) :
    (∀ t ∈ args, isPipeInitial t = false) → find_pipe_idx args = none := by
  induction args with
  | nil => intro _; rfl
  | cons t ts ih =>
    intro h
    rw [find_pipe_idx, h t (by simp)]
    show (find_pipe_idx ts).map (· + 1) = none
    rw [ih (fun u hu => h u (by simp [hu]))]
    rfl

lemma find_pipe_idx_isPipe (args : List String) :
    ∀ i, find_pipe_idx args = some i → isPipeInitial (args.getD i "") = true := by
  induction args with
  | nil => intro i h; exact absurd h (by simp [find_pipe_idx])
  | cons t ts ih =>
    intro i h
    rw [find_pipe_idx] at h
    by_cases hp : isPipeInitial t
    · rw [if_pos hp] at h
      injection h with h0
      rw [← h0, List.getD_cons_zero]
      exact hp
    · rw [if_neg hp] at h
      obtain ⟨j, hj, hji⟩ := Option.map_eq_some'.mp h
      rw [← hji, List.getD_cons_succ]
      exact ih j hj

lemma pipe_token_exact (t : String) (h : isPipeInitial t = true) (hl : t.length ≤ 1) :
    t = "|" := by
  cases t with
  | mk data =>
    cases data with
    | nil => exact absurd h (by simp [isPipeInitial])
    | cons c cs =>
      simp only [isPipeInitial] at h
      have hc : c = '|' := beq_iff_eq.mp h
      have hlen : cs.length = 0 := by
        simp only [String.length_mk, List.length_cons] at hl
        omega
      have hcs : cs = [] := List.length_eq_zero.mp hlen
      subst hc
      subst hcs
      rfl

/-- C4 amended: `jshell_exec` recognizes pipe-candidate tokens by their FIRST
character only.

* If no token begins with `'|'` — in particular when pipe characters occur
  only embedded beyond the first position of longer tokens — the executor
  neither reports a pipe syntax error nor dispatches a pipeline (the token
  is ignored, and dispatch falls through to builtins/external launch).
* If the first `'|'`-initial token is longer than one character (e.g.
  `"|foo"`), the executor prints "Syntax error for '|'" and returns
  `JSHELL_FAILED` — it is NOT ignored.
* Pipeline dispatch happens only when that token is exactly `"|"` and is
  not the first token. -/
theorem exec_pipe_token_recognition :
    ∀ (env : Env) (args : List String),
      ((∀ t ∈ args, isPipeInitial t = false) → isPipePath (jshell_exec env args) = false)
      ∧ (∀ i, find_pipe_idx args = some i → 2 ≤ (args.getD i "").length →
          jshell_exec env args = ExecOutcome.ret ExecAction.pipeSyntaxErr JSHELL_FAILED)
      ∧ (∀ i r c, find_pipe_idx args = some i →
          jshell_exec env args = ExecOutcome.ret (ExecAction.piped r) c →
          args.getD i "" = "|" ∧ 1 ≤ i) := by
  intro env args
  refine ⟨?_, ?_, ?_⟩
  · intro h
    cases args with
    | nil => rfl
    | cons a0 rest =>
      have hn := find_pipe_idx_eq_none _ h
      rw [jshell_exec, hn]
      by_cases h0 : a0 = "cd"
      · rw [if_pos h0]
        rw [jshell_cd]
        cases (a0 :: rest).get? 1 <;> rfl
      · rw [if_neg h0]
        by_cases h1 : a0 = "help"
        · rw [if_pos h1]; rfl
        · rw [if_neg h1]
          by_cases h2 : a0 = "exit"
          · rw [if_pos h2]; rfl
          · rw [if_neg h2]; rfl
  · intro i hfind hlen
    cases args with
    | nil => exact absurd hfind (by simp [find_pipe_idx])
    | cons a0 rest =>
      simp only [jshell_exec, hfind]
      have hc : ((a0 :: rest).getD i "").length > 1 ∨ i = 0 := Or.inl (by omega)
      rw [if_pos hc]
  · intro i r c hfind heq
    cases args with
    | nil => exact absurd hfind (by simp [find_pipe_idx])
    | cons a0 rest =>
      simp only [jshell_exec, hfind] at heq
      by_cases hcond : ((a0 :: rest).getD i "").length > 1 ∨ i = 0
      · rw [if_pos hcond] at heq
        exact absurd heq (by simp)
      · push_neg at hcond
        have hp := find_pipe_idx_isPipe _ i hfind
        exact ⟨pipe_token_exact _ hp (by omega), by omega⟩

/-- Witness for `exec_pipe_token_recognition`: an embedded (non-leading)
pipe is ignored; a longer leading-pipe token raises the syntax error; actual
dispatch of `["ls","|","wc"]` certifies its separator is exactly `"|"` at a
non-zero index. -/
theorem exec_pipe_token_recognition_w :
    isPipePath (jshell_exec defaultEnv ["echo", "a|b"]) = false
    ∧ jshell_exec defaultEnv ["grep", "x|y", "|z"] =
        ExecOutcome.ret ExecAction.pipeSyntaxErr JSHELL_FAILED
    ∧ (["ls", "|", "wc"].getD 1 "" = "|" ∧ 1 ≤ 1) :=
  ⟨(exec_pipe_token_recognition defaultEnv ["echo", "a|b"]).1 (by decide),
   (exec_pipe_token_recognition defaultEnv ["grep", "x|y", "|z"]).2.1 2 rfl (by decide),
   (exec_pipe_token_recognition defaultEnv ["ls", "|", "wc"]).2.2 1
     (PipeResult.spawn (some ["ls"]) ["wc"]) JSHELL_SUCCESS rfl (by decide)⟩

/-- C8 amended: a non-empty token sequence containing no `'|'`-initial token
(so in particular no pipe separator), whose first token is none of the
builtins `cd`, `help`, `exit`, is launched by `jshell_exec` as a single
external child via `jshell_run`: the full token sequence is the child's
argv, the parent waits for the child, and `JSHELL_SUCCESS` (`CONTINUE`) is
returned for every child fate — normal exit with any code, death by signal,
or `execvp` failure (which is reported inside the child and only makes the
child exit with `EXIT_FAILURE`; the shell itself continues). -/
theorem exec_external_dispatch :
    ∀ (env : Env) (a0 : String) (rest : List String),
      (∀ t ∈ a0 :: rest, isPipeInitial t = false) →
      a0 ≠ "cd" → a0 ≠ "help" → a0 ≠ "exit" →
      jshell_exec env (a0 :: rest) =
        ExecOutcome.ret (ExecAction.externalRun (a0 :: rest)) JSHELL_SUCCESS
      ∧ jshell_run (a0 :: rest) env.childFate = ⟨a0 :: rest, true, JSHELL_SUCCESS⟩
      ∧ JSHELL_SUCCESS ≠ JSHELL_EXIT_CODE := by
  intro env a0 rest hp h0 h1 h2
  have hn := find_pipe_idx_eq_none _ hp
  have hrun : jshell_run (a0 :: rest) env.childFate = ⟨a0 :: rest, true, JSHELL_SUCCESS⟩ := by
    cases env.childFate <;> rfl
  refine ⟨?_, hrun, by decide⟩
  rw [jshell_exec, hn, if_neg h0, if_neg h1, if_neg h2]
  rfl

/-- Witness for `exec_external_dispatch`: `["ls","-l"]` with a child killed
by signal 9 still yields an external launch returning `CONTINUE`. -/
theorem exec_external_dispatch_w :
    jshell_exec ⟨true, ChildFate.signaled 9⟩ ["ls", "-l"] =
      ExecOutcome.ret (ExecAction.externalRun ["ls", "-l"]) JSHELL_SUCCESS :=
  (exec_external_dispatch ⟨true, ChildFate.signaled 9⟩ "ls" ["-l"]
    (by decide) (by decide) (by decide) (by decide)).1

lemma end_token_ne_empty (acc : List String) (buf : List Char)
    (h : ∀ t ∈ acc, t ≠ "") : ∀ t ∈ end_token acc buf, t ≠ "" := by
  intro t ht
  rw [end_token] at ht
  by_cases hb : buf = []
  · rw [if_pos hb] at ht
    exact h t ht
  · rw [if_neg hb] at ht
    rcases List.mem_append.mp ht with h1 | h2
    · exact h t h1
    · have ht2 : t = String.mk buf := by simpa using h2
      subst ht2
      intro hc
      exact hb (by simpa using congrArg String.data hc)

lemma splitGo_ok_tokens_ne (l : List Char) (iq : Bool) (buf : List Char)
    (acc : List String) :
    (∀ t ∈ acc, t ≠ "") → ∀ ts, splitGo l iq buf acc = Except.ok ts →
      ∀ t ∈ ts, t ≠ "" := by
  induction l, iq, buf, acc using splitGo.induct with
  | case1 buf acc =>
    intro _ ts heq
    rw [splitGo_nil_true] at heq
    exact absurd heq (by simp)
  | case2 iq buf acc hniq =>
    intro h ts heq
    have hiq : iq = false := by revert hniq; cases iq <;> simp
    subst hiq
    rw [splitGo_nil_false] at heq
    injection heq with h1
    subst h1
    exact end_token_ne_empty acc buf h
  | case3 buf acc =>
    intro h ts heq
    rw [splitGo_quote_close_nil] at heq
    injection heq with h1
    subst h1
    exact end_token_ne_empty acc buf h
  | case4 buf acc d rest' hd ih =>
    intro h ts heq
    rw [splitGo_quote_close, if_pos hd] at heq
    exact ih (end_token_ne_empty acc buf h) ts heq
  | case5 buf acc d rest' hd =>
    intro _ ts heq
    rw [splitGo_quote_close, if_neg hd] at heq
    exact absurd heq (by simp)
  | case6 rest iq buf acc hniq ih =>
    intro h ts heq
    have hiq : iq = false := by revert hniq; cases iq <;> simp
    subst hiq
    rw [splitGo_quote_open] at heq
    exact ih h ts heq
  | case7 c rest iq buf acc hc hcond ih =>
    intro h ts heq
    rw [splitGo_cons c rest iq buf acc hc, if_pos hcond] at heq
    exact ih h ts heq
  | case8 c rest iq buf acc hc hcond ih =>
    intro h ts heq
    rw [splitGo_cons c rest iq buf acc hc, if_neg hcond] at heq
    exact ih (end_token_ne_empty acc buf h) ts heq

lemma splitGo_all_delims (l : List Char) :
    ∀ (acc : List String), (∀ c ∈ l, is_delimiter c = true) →
      splitGo l false [] acc = Except.ok acc := by
  induction l with
  | nil =>
    intro acc _
    rw [splitGo_nil_false, end_token_nil]
  | cons c rest ih =>
    intro acc h
    have hcd : is_delimiter c = true := h c (by simp)
    have hc : c ≠ '"' := by
      intro hh
      rw [hh] at hcd
      exact absurd hcd (by decide)
    have hcond : ¬ ((!is_delimiter c || false) = true) := by simp [hcd]
    rw [splitGo_cons c rest false [] acc hc, if_neg hcond, end_token_nil]
    exact ih acc (fun x hx => h x (by simp [hx]))

/-- C9: for a line with well-formed quoting (the tokenizer returns a token
sequence rather than aborting), every produced token is a non-empty string —
consecutive delimiters collapse and the empty pending buffer at a delimiter
or at end-of-line is skipped — and a line consisting solely of delimiter
characters tokenizes to the empty sequence. -/
theorem split_line_tokens_nonempty :
    ∀ (line : List Char),
      (∀ ts, split_line line = Except.ok ts → ∀ t ∈ ts, t ≠ "")
      ∧ ((∀ c ∈ line, is_delimiter c = true) → split_line line = Except.ok []) := by
  intro line
  constructor
  · intro ts heq
    exact splitGo_ok_tokens_ne line false [] [] (by simp) ts heq
  · intro hd
    exact splitGo_all_delims line [] hd

/-- Witness for `split_line_tokens_nonempty`: the line `" x "` yields the
non-empty token `"x"`, and the all-blank line `"  "` yields no tokens. -/
theorem split_line_tokens_nonempty_w :
    ("x" ≠ "") ∧ split_line "  ".data = Except.ok [] :=
  ⟨(split_line_tokens_nonempty " x ".data).1 ["x"] (by decide) "x" (by decide),
   (split_line_tokens_nonempty "  ".data).2 (by decide)⟩

/-! Step equations and write-bound lemmas for the instrumented tokenizer. -/

lemma splitGoW_nil_true (buf : List Char) (acc : List String) :
    splitGoW [] true buf acc = (Except.error "Parsing ended unexpectedly.", end_write buf) := by
  conv_lhs => rw [splitGoW.eq_def]
  rfl

lemma splitGoW_nil_false (buf : List Char) (acc : List String) :
    splitGoW [] false buf acc = (Except.ok (end_token acc buf), end_write buf) := by
  conv_lhs => rw [splitGoW.eq_def]
  rfl

lemma splitGoW_quote_open (rest : List Char) (buf : List Char) (acc : List String) :
    splitGoW (('"' : Char) :: rest) false buf acc = splitGoW rest true buf acc := by
  conv_lhs => rw [splitGoW.eq_def]
  rfl

lemma splitGoW_quote_close_nil (buf : List Char) (acc : List String) :
    splitGoW [('"' : Char)] true buf acc = (Except.ok (end_token acc buf), end_write buf) := by
  conv_lhs => rw [splitGoW.eq_def]
  rfl

lemma splitGoW_quote_close (d : Char) (rest : List Char) (buf : List Char)
    (acc : List String) :
    splitGoW ('"' :: d :: rest) true buf acc =
      if is_delimiter d then
        ((splitGoW rest false [] (end_token acc buf)).1,
          max (splitGoW rest false [] (end_token acc buf)).2 (end_write buf))
      else (Except.error "Expected delimiter after end quote.", 0) := by
  conv_lhs => rw [splitGoW.eq_def]
  rfl

lemma splitGoW_cons (c : Char) (rest : List Char) (iq : Bool) (buf : List Char)
    (acc : List String) (hc : c ≠ '"') :
    splitGoW (c :: rest) iq buf acc =
      if !is_delimiter c || iq then
        ((splitGoW rest iq (buf ++ [c]) acc).1,
          max (splitGoW rest iq (buf ++ [c]) acc).2 buf.length)
      else
        ((splitGoW rest false [] (end_token acc buf)).1,
          max (splitGoW rest false [] (end_token acc buf)).2 (end_write buf)) := by
  conv_lhs => rw [splitGoW.eq_def]
  simp only [if_neg hc]

lemma end_token_append (acc : List String) (buf : List Char) :
    ∃ u, end_token acc buf = acc ++ u := by
  rw [end_token]
  by_cases hb : buf = []
  · rw [if_pos hb]
    exact ⟨[], by simp⟩
  · rw [if_neg hb]
    exact ⟨[String.mk buf], rfl⟩

lemma mk_mem_end_token (acc : List String) (buf : List Char) (hb : buf ≠ []) :
    String.mk buf ∈ end_token acc buf := by
  rw [end_token, if_neg hb]
  simp

lemma splitGoW_acc_prefix (l : List Char) (iq : Bool) (buf : List Char)
    (acc : List String) :
    ∀ ts m, splitGoW l iq buf acc = (Except.ok ts, m) → ∃ u, ts = acc ++ u := by
  induction l, iq, buf, acc using splitGoW.induct with
  | case1 buf acc =>
    intro ts m heq
    rw [splitGoW_nil_true, Prod.mk.injEq] at heq
    exact absurd heq.1 (by simp)
  | case2 iq buf acc hniq =>
    intro ts m heq
    have hiq : iq = false := by revert hniq; cases iq <;> simp
    subst hiq
    rw [splitGoW_nil_false, Prod.mk.injEq] at heq
    obtain ⟨h1, -⟩ := heq
    injection h1 with h1
    subst h1
    exact end_token_append acc buf
  | case3 buf acc =>
    intro ts m heq
    rw [splitGoW_quote_close_nil, Prod.mk.injEq] at heq
    obtain ⟨h1, -⟩ := heq
    injection h1 with h1
    subst h1
    exact end_token_append acc buf
  | case4 buf acc d rest' hd ih =>
    intro ts m heq
    rw [splitGoW_quote_close, if_pos hd, Prod.mk.injEq] at heq
    obtain ⟨h1, -⟩ := heq
    obtain ⟨u, hu⟩ := ih ts (splitGoW rest' false [] (end_token acc buf)).2 (by rw [← h1])
    obtain ⟨v, hv⟩ := end_token_append acc buf
    exact ⟨v ++ u, by rw [hu, hv, List.append_assoc]⟩
  | case5 buf acc d rest' hd =>
    intro ts m heq
    rw [splitGoW_quote_close, if_neg hd, Prod.mk.injEq] at heq
    exact absurd heq.1 (by simp)
  | case6 rest iq buf acc hniq ih =>
    intro ts m heq
    have hiq : iq = false := by revert hniq; cases iq <;> simp
    subst hiq
    rw [splitGoW_quote_open] at heq
    exact ih ts m heq
  | case7 c rest iq buf acc hc hcond ih =>
    intro ts m heq
    rw [splitGoW_cons c rest iq buf acc hc, if_pos hcond, Prod.mk.injEq] at heq
    obtain ⟨h1, -⟩ := heq
    exact ih ts (splitGoW rest iq (buf ++ [c]) acc).2 (by rw [← h1])
  | case8 c rest iq buf acc hc hcond ih =>
    intro ts m heq
    rw [splitGoW_cons c rest iq buf acc hc, if_neg hcond, Prod.mk.injEq] at heq
    obtain ⟨h1, -⟩ := heq
    obtain ⟨u, hu⟩ := ih ts (splitGoW rest false [] (end_token acc buf)).2 (by rw [← h1])
    obtain ⟨v, hv⟩ := end_token_append acc buf
    exact ⟨v ++ u, by rw [hu, hv, List.append_assoc]⟩

lemma splitGoW_buf_token (l : List Char) (iq : Bool) (buf : List Char)
    (acc : List String) :
    ∀ ts m, splitGoW l iq buf acc = (Except.ok ts, m) → buf ≠ [] →
      ∃ t ∈ ts, buf.length ≤ t.length := by
  induction l, iq, buf, acc using splitGoW.induct with
  | case1 buf acc =>
    intro ts m heq _
    rw [splitGoW_nil_true, Prod.mk.injEq] at heq
    exact absurd heq.1 (by simp)
  | case2 iq buf acc hniq =>
    intro ts m heq hb
    have hiq : iq = false := by revert hniq; cases iq <;> simp
    subst hiq
    rw [splitGoW_nil_false, Prod.mk.injEq] at heq
    obtain ⟨h1, -⟩ := heq
    injection h1 with h1
    subst h1
    exact ⟨String.mk buf, mk_mem_end_token acc buf hb, by simp⟩
  | case3 buf acc =>
    intro ts m heq hb
    rw [splitGoW_quote_close_nil, Prod.mk.injEq] at heq
    obtain ⟨h1, -⟩ := heq
    injection h1 with h1
    subst h1
    exact ⟨String.mk buf, mk_mem_end_token acc buf hb, by simp⟩
  | case4 buf acc d rest' hd ih =>
    intro ts m heq hb
    rw [splitGoW_quote_close, if_pos hd, Prod.mk.injEq] at heq
    obtain ⟨h1, -⟩ := heq
    obtain ⟨u, hu⟩ := splitGoW_acc_prefix rest' false [] (end_token acc buf) ts
      (splitGoW rest' false [] (end_token acc buf)).2 (by rw [← h1])
    refine ⟨String.mk buf, ?_, by simp⟩
    rw [hu]
    exact List.mem_append_left u (mk_mem_end_token acc buf hb)
  | case5 buf acc d rest' hd =>
    intro ts m heq _
    rw [splitGoW_quote_close, if_neg hd, Prod.mk.injEq] at heq
    exact absurd heq.1 (by simp)
  | case6 rest iq buf acc hniq ih =>
    intro ts m heq hb
    have hiq : iq = false := by revert hniq; cases iq <;> simp
    subst hiq
    rw [splitGoW_quote_open] at heq
    exact ih ts m heq hb
  | case7 c rest iq buf acc hc hcond ih =>
    intro ts m heq _
    rw [splitGoW_cons c rest iq buf acc hc, if_pos hcond, Prod.mk.injEq] at heq
    obtain ⟨h1, -⟩ := heq
    obtain ⟨t, ht, hlen⟩ := ih ts (splitGoW rest iq (buf ++ [c]) acc).2
      (by rw [← h1]) (by simp)
    refine ⟨t, ht, ?_⟩
    rw [List.length_append] at hlen
    omega
  | case8 c rest iq buf acc hc hcond ih =>
    intro ts m heq hb
    rw [splitGoW_cons c rest iq buf acc hc, if_neg hcond, Prod.mk.injEq] at heq
    obtain ⟨h1, -⟩ := heq
    obtain ⟨u, hu⟩ := splitGoW_acc_prefix rest false [] (end_token acc buf) ts
      (splitGoW rest false [] (end_token acc buf)).2 (by rw [← h1])
    refine ⟨String.mk buf, ?_, by simp⟩
    rw [hu]
    exact List.mem_append_left u (mk_mem_end_token acc buf hb)

lemma splitGoW_writes_bound (l : List Char) (iq : Bool) (buf : List Char)
    (acc : List String) :
    ∀ ts m, splitGoW l iq buf acc = (Except.ok ts, m) → (∀ t ∈ ts, t.length ≤ 99) →
      m ≤ 99 := by
  induction l, iq, buf, acc using splitGoW.induct with
  | case1 buf acc =>
    intro ts m heq _
    rw [splitGoW_nil_true, Prod.mk.injEq] at heq
    exact absurd heq.1 (by simp)
  | case2 iq buf acc hniq =>
    intro ts m heq hts
    have hiq : iq = false := by revert hniq; cases iq <;> simp
    subst hiq
    rw [splitGoW_nil_false, Prod.mk.injEq] at heq
    obtain ⟨h1, h2⟩ := heq
    injection h1 with h1
    subst h1
    rw [← h2, end_write]
    by_cases hb : buf = []
    · rw [if_pos hb]
      omega
    · rw [if_neg hb]
      have := hts (String.mk buf) (mk_mem_end_token acc buf hb)
      simpa using this
  | case3 buf acc =>
    intro ts m heq hts
    rw [splitGoW_quote_close_nil, Prod.mk.injEq] at heq
    obtain ⟨h1, h2⟩ := heq
    injection h1 with h1
    subst h1
    rw [← h2, end_write]
    by_cases hb : buf = []
    · rw [if_pos hb]
      omega
    · rw [if_neg hb]
      have := hts (String.mk buf) (mk_mem_end_token acc buf hb)
      simpa using this
  | case4 buf acc d rest' hd ih =>
    intro ts m heq hts
    rw [splitGoW_quote_close, if_pos hd, Prod.mk.injEq] at heq
    obtain ⟨h1, h2⟩ := heq
    have hrec : (splitGoW rest' false [] (end_token acc buf)).2 ≤ 99 :=
      ih ts (splitGoW rest' false [] (end_token acc buf)).2 (by rw [← h1]) hts
    have hew : end_write buf ≤ 99 := by
      rw [end_write]
      by_cases hb : buf = []
      · rw [if_pos hb]
        omega
      · rw [if_neg hb]
        obtain ⟨u, hu⟩ := splitGoW_acc_prefix rest' false [] (end_token acc buf) ts
          (splitGoW rest' false [] (end_token acc buf)).2 (by rw [← h1])
        have := hts (String.mk buf)
          (by rw [hu]; exact List.mem_append_left u (mk_mem_end_token acc buf hb))
        simpa using this
    rw [← h2]
    exact max_le hrec hew
  | case5 buf acc d rest' hd =>
    intro ts m heq _
    rw [splitGoW_quote_close, if_neg hd, Prod.mk.injEq] at heq
    exact absurd heq.1 (by simp)
  | case6 rest iq buf acc hniq ih =>
    intro ts m heq hts
    have hiq : iq = false := by revert hniq; cases iq <;> simp
    subst hiq
    rw [splitGoW_quote_open] at heq
    exact ih ts m heq hts
  | case7 c rest iq buf acc hc hcond ih =>
    intro ts m heq hts
    rw [splitGoW_cons c rest iq buf acc hc, if_pos hcond, Prod.mk.injEq] at heq
    obtain ⟨h1, h2⟩ := heq
    have hrec : (splitGoW rest iq (buf ++ [c]) acc).2 ≤ 99 :=
      ih ts (splitGoW rest iq (buf ++ [c]) acc).2 (by rw [← h1]) hts
    have hbuf : buf.length ≤ 99 := by
      obtain ⟨t, ht, hlen⟩ := splitGoW_buf_token rest iq (buf ++ [c]) acc ts
        (splitGoW rest iq (buf ++ [c]) acc).2 (by rw [← h1]) (by simp)
      have := hts t ht
      rw [List.length_append] at hlen
      omega
    rw [← h2]
    exact max_le hrec hbuf
  | case8 c rest iq buf acc hc hcond ih =>
    intro ts m heq hts
    rw [splitGoW_cons c rest iq buf acc hc, if_neg hcond, Prod.mk.injEq] at heq
    obtain ⟨h1, h2⟩ := heq
    have hrec : (splitGoW rest false [] (end_token acc buf)).2 ≤ 99 :=
      ih ts (splitGoW rest false [] (end_token acc buf)).2 (by rw [← h1]) hts
    have hew : end_write buf ≤ 99 := by
      rw [end_write]
      by_cases hb : buf = []
      · rw [if_pos hb]
        omega
      · rw [if_neg hb]
        obtain ⟨u, hu⟩ := splitGoW_acc_prefix rest false [] (end_token acc buf) ts
          (splitGoW rest false [] (end_token acc buf)).2 (by rw [← h1])
        have := hts (String.mk buf)
          (by rw [hu]; exact List.mem_append_left u (mk_mem_end_token acc buf hb))
        simpa using this
    rw [← h2]
    exact max_le hrec hew

/-- C10: the tokenizer writes each token into the fixed 100-byte buffer
`char token[MAX_WORD_SIZE]` with no bound check.

* For every line the tokenizer accepts whose tokens (quoted content
  included) all have length at most 99, every buffer write — data byte at
  index `j` and terminating NUL at index `j = token length` — stays below
  `MAX_WORD_SIZE`, i.e. in bounds.
* The out-of-bounds branch is reachable: a line that is one word of 100
  `'a'`s drives the write index up to `100 = MAX_WORD_SIZE`, one past the
  last valid index 99 (the terminating NUL lands outside the buffer). -/
theorem split_line_buffer_bound :
    (∀ (line : List Char) ts m, split_line_w line = (Except.ok ts, m) →
      (∀ t ∈ ts, t.length ≤ 99) → m < MAX_WORD_SIZE)
    ∧ split_line_w (List.replicate MAX_WORD_SIZE 'a') =
        (Except.ok [String.mk (List.replicate MAX_WORD_SIZE 'a')], MAX_WORD_SIZE) := by
  constructor
  · intro line ts m heq hts
    have h := splitGoW_writes_bound line false [] [] ts m heq hts
    rw [MAX_WORD_SIZE]
    omega
  · decide

/-- Witness for `split_line_buffer_bound`: the two-character word `"ab"`
keeps all writes at indices `≤ 2 < 100`. -/
theorem split_line_buffer_bound_w :
    split_line_w "ab".data = (Except.ok ["ab"], 2) ∧ 2 < MAX_WORD_SIZE :=
  ⟨by decide, split_line_buffer_bound.1 "ab".data ["ab"] 2 (by decide) (by decide)⟩
